import Mathlib

/-!
Verification development for the period-comparison aggregation scripts
(`auto_monthly_analysis.py`, `data_analyzer.py`, `data_analyzer_v2.py`,
`data_analysis_report.py`): a shallow embedding of the growth-rate
calculators, the period merger, the aggregator, the interval binner and the
column classifier, together with theorems settling the specification's
claims.

Modelling conventions: numeric cell values are exact rationals (`ℚ`); a
pandas `NaN` / missing cell is `none` of an `Option` type; the IEEE
infinities produced by numpy are the dedicated constructors of
`GrowthValue`; a DataFrame is a list of rows or columns as each function
needs.
-/

/-- Python `round(y, 2)` scaled to the integers: round `x` to the nearest
integer, ties to the even integer (the rounding mode of Python `round`;
binary floating-point representation error is ignored, values being exact
rationals). -/
def roundHalfEven (x : ℚ) : ℤ :=
  let f := Rat.floor x
  if x - f < 1/2 then f
  else if (1:ℚ)/2 < x - f then f + 1
  else if f % 2 = 0 then f else f + 1

/-- Python `round(x, 2)`: round to 2 decimal places, ties to even. -/
def pround2 (x : ℚ) : ℚ := (roundHalfEven (x * 100) : ℚ) / 100

/-- A value of the growth-rate column of `auto_monthly_analysis.py`: an
ordinary (rational) number or one of the IEEE infinities that `np.divide`
with an `np.inf`-filled `out` array and `np.where` can produce. -/
inductive GrowthValue : Type where
  | num (q : ℚ)
  | posInf
  | negInf
deriving DecidableEq

namespace AutoMonthly

/-- The per-cell growth computation of `calculate_growth_rate` in
`auto_monthly_analysis.py` (lines 226-248).  The elementwise numpy column
operations are modelled pointwise, per (group, metric) cell:
`np.divide(c - p, p, out=np.full_like(c, np.inf), where=(p != 0))`, then
the `np.where` override for `p == 0` and `c > 0` (→ `np.inf`), then the
`np.where` override for `p == 0` and `c == 0` (→ `0`).  Note that cells
with `p == 0` keep the `np.inf` fill value unless an override hits them. -/
def calculate_growth_rate (p c : ℚ) : GrowthValue :=
  let divided : GrowthValue := if p ≠ 0 then .num ((c - p) / p) else .posInf
  let override1 : GrowthValue := if p = 0 ∧ c > 0 then .posInf else divided
  if p = 0 ∧ c = 0 then .num 0 else override1

end AutoMonthly

namespace DataAnalyzer

/-- The growth-rate lambda of `calculate_comparison` in `data_analyzer.py`
(lines 262-268): `round((c - p) / p * 100, 2)` when the prior total is
non-zero, otherwise the fixed placeholder `100.0` when the current total is
positive and `0.0` otherwise. -/
def growth_pct (p c : ℚ) : ℚ :=
  if p ≠ 0 then pround2 ((c - p) / p * 100)
  else if c > 0 then 100 else 0

/-- The absolute-change column `{col}_变化` of `calculate_comparison` in
`data_analyzer.py` (line 259): current total minus prior total. -/
def delta_change (p c : ℚ) : ℚ := c - p

end DataAnalyzer

namespace DataAnalyzerV2

/-- The growth-rate lambda of `calculate_comparison` in
`data_analyzer_v2.py` (lines 496-502); textually the same policy as
`data_analyzer.py`: `round((c - p) / p * 100, 2)` for a non-zero prior,
else `100.0` for a positive current total and `0.0` otherwise. -/
def growth_pct_v2 (p c : ℚ) : ℚ :=
  if p ≠ 0 then pround2 ((c - p) / p * 100)
  else if c > 0 then 100 else 0

end DataAnalyzerV2

namespace DataAnalysisReport

/-- `calculate_growth_rates` of `data_analysis_report.py` (lines 85-101):
month-over-month and year-over-year growth for one row.  A missing
(`NaN`) input is `none`; `pd.isna(x) or x == 0` on the denominator yields
`NaN`, and arithmetic on a `NaN` current value also yields `NaN`. -/
def calculate_growth_rates (current lastMonth lastYear : Option ℚ) :
    Option ℚ × Option ℚ :=
  let mom : Option ℚ :=
    match lastMonth with
    | none => none
    | some lm => if lm = 0 then none else current.map (fun c => (c - lm) / lm * 100)
  let yoy : Option ℚ :=
    match lastYear with
    | none => none
    | some ly => if ly = 0 then none else current.map (fun c => (c - ly) / ly * 100)
  (mom, yoy)

end DataAnalysisReport

namespace Merger

/-- Metric totals of one aggregate row: one total per metric column name.
After the zero fill, a wholly absent side's totals are the all-zero
function. -/
abbrev Metrics := String → ℚ

/-- Row lookup by merge key, modelling the match `pd.merge` finds for one
key of the `on=` columns; aggregates coming out of `groupby(...).sum()`
carry each key at most once, which is the regime the theorems below
assume. -/
def lookupKey {κ : Type} [DecidableEq κ] {M : Type} (k : κ)
    (l : List (κ × M)) : Option M :=
  (l.find? (fun r => decide (r.1 = k))).map Prod.snd

/-- The outer join `pd.merge(current, previous, on=dimension_cols,
how='outer', suffixes=('_本月', '_上月'))` of `merge_monthly_data`
(`auto_monthly_analysis.py`, lines 182-190) and of `calculate_comparison`
(`data_analyzer.py`, lines 242-244): every current row paired with its
prior match (or `none`), followed by the prior rows with no current
match; the metric cells of a missing side are all `NaN` (`none`). -/
def outer_join {κ : Type} [DecidableEq κ] (cur prev : List (κ × Metrics)) :
    List (κ × Option Metrics × Option Metrics) :=
  cur.map (fun r => (r.1, some r.2, lookupKey r.1 prev)) ++
    (prev.filter (fun r => (lookupKey r.1 cur).isNone)).map
      (fun r => (r.1, none, some r.2))

/-- The zero fill `merged = merged.fillna(0)` (`auto_monthly_analysis.py`,
line 198), resp. the per-metric-column `fillna(0)` loop
(`data_analyzer.py`, lines 246-249): every `NaN` metric cell becomes 0, so
a wholly missing side becomes the all-zero totals. -/
def fillna_zero {κ : Type} (j : List (κ × Option Metrics × Option Metrics)) :
    List (κ × Metrics × Metrics) :=
  j.map (fun e => (e.1, e.2.1.getD (fun _ => 0), e.2.2.getD (fun _ => 0)))

/-- `merge_monthly_data`: outer join then zero fill — the merged wide
table on which the growth-rate computation subsequently runs. -/
def merge_monthly_data {κ : Type} [DecidableEq κ]
    (cur prev : List (κ × Metrics)) : List (κ × Metrics × Metrics) :=
  fillna_zero (outer_join cur prev)

/-- The grouping-key column of an aggregate or of the merged table. -/
def keysOf {κ M : Type} (l : List (κ × M)) : List κ := l.map Prod.fst

end Merger

namespace Aggregator

/-- One input row for dimension-mode aggregation: the values of the
grouping-key columns (in `group_by_cols` order; `none` is a missing cell)
and the metric columns after `pd.to_numeric(..., errors='coerce')`
(`none` is a cell whose numeric coercion failed or that was missing). -/
structure Row where
  gvals : List (Option String)
  mvals : String → Option ℚ

/-- The grouping key of a row: present only when every grouping cell is
present (`groupby` drops a row with `NaN` in any grouping column). -/
def rowKey : List (Option String) → Option (List String)
  | [] => some []
  | none :: _ => none
  | some v :: rest => (rowKey rest).map (v :: ·)

/-- The distinct observed grouping keys.  `groupby` emits each observed
key combination once; the spec imposes no ordering invariant on the
aggregate (§4.2), and no theorem below depends on the order of this
list. -/
def observedKeys (rows : List Row) : List (List String) :=
  (rows.filterMap (fun r => rowKey r.gvals)).dedup

/-- The sum of metric `m` over the rows of group `k`; a `NaN` metric cell
contributes 0 (`sum()` skips `NaN`). -/
def groupTotal (rows : List Row) (k : List String) (m : String) : ℚ :=
  ((rows.filter (fun r => decide (rowKey r.gvals = some k))).map
    (fun r => (r.mvals m).getD 0)).sum

/-- Dimension-mode `group_and_summarize` (`data_analyzer.py` lines
211-221, `data_analyzer_v2.py` lines 438-456; `aggregate_data` of
`auto_monthly_analysis.py` lines 159-166 is the same groupby-sum): one
aggregate row per observed grouping-key combination, metrics summed. -/
def group_and_summarize (rows : List Row) :
    List (List String × (String → ℚ)) :=
  (observedKeys rows).map (fun k => (k, fun m => groupTotal rows k m))

/-- An interval-mode aggregation input row: the interval label assigned by
`pd.cut` (`none` when the binning value failed numeric coercion) and the
metric columns. -/
structure BinnedRow where
  label : Option String
  mvals : String → Option ℚ

/-- Interval-mode `group_and_summarize`: the `区间` column produced by
`pd.cut` is categorical with the label list as its categories, and
`groupby` over a categorical column (pandas default `observed=False`)
emits one output row per category, in category order — including labels
observed in no row, whose sums are 0.  Rows whose label is `NaN` are
dropped. -/
def interval_group_and_summarize (labels : List String)
    (rows : List BinnedRow) : List (String × (String → ℚ)) :=
  labels.map (fun lab =>
    (lab, fun m =>
      ((rows.filter (fun r => decide (r.label = some lab))).map
        (fun r => (r.mvals m).getD 0)).sum))

end Aggregator

namespace Binner

/-- The middle labels of `create_interval_labels` (`data_analyzer_v2.py`
lines 388-390): one label `"{c_i}-{c_(i+1)}"` per adjacent cutpoint pair.
Numbers are rendered by `toString` on `ℚ`, modelling the Python string
formatting of the numeric cutpoints. -/
def middle_labels : List ℚ → List String
  | a :: b :: rest => (toString a ++ "-" ++ toString b) :: middle_labels (b :: rest)
  | _ => []

/-- `create_interval_labels` of `data_analyzer_v2.py` (lines 370-395):
`"<=c1"`, the middle labels, then `">cn"`; an empty cutpoint list yields
no labels.  The `min_val`/`max_val` parameters of the source are unused by
its body and omitted here. -/
def create_interval_labels : List ℚ → List String
  | [] => []
  | c :: rest =>
      ("<=" ++ toString c) ::
        (middle_labels (c :: rest) ++ [">" ++ toString (rest.getLastD c)])

/-- The interval index `pd.cut` assigns to value `v` for the increasing
bin edges `[-np.inf] + cutpoints + [np.inf]` with `right=False`
(left-closed, right-open intervals): the number of cutpoints `≤ v`. -/
def cut_index (cutpoints : List ℚ) (v : ℚ) : Nat :=
  cutpoints.countP (fun cp => decide (cp ≤ v))

/-- `apply_interval_binning` of `data_analyzer_v2.py` (lines 397-423)
restricted to the binning metric column: each value is first coerced by
`pd.to_numeric(..., errors='coerce')` (`none` = coercion failed, excluded
from binning), then assigned the label of the `pd.cut` interval containing
it.  Faithful for the strictly increasing cutpoint sequences `pd.cut`
accepts. -/
def apply_interval_binning (vals : List (Option ℚ)) (cutpoints : List ℚ)
    (labels : List String) : List (Option String) :=
  vals.map (fun v? => v?.bind (fun v => labels[cut_index cutpoints v]?))

/-- Line 353 of `get_interval_cutpoints` (`data_analyzer_v2.py`):
`cutpoints = sorted(cutpoints)` — the user-supplied cutpoints are sorted
ascending before being returned to the caller. -/
def get_interval_cutpoints_sorted (raw : List ℚ) : List ℚ :=
  List.insertionSort (fun a b => a ≤ b) raw

/-- The label-construction step of the interval pipeline
`run_metric_interval_summary` (`data_analyzer_v2.py` lines 609-673):
labels are created from the sorted cutpoints that `get_interval_cutpoints`
returned. -/
def run_interval_labels (raw : List ℚ) : List String :=
  create_interval_labels (get_interval_cutpoints_sorted raw)

/-- The binning step of the same pipeline: rows are assigned to intervals
using the sorted cutpoints and the labels built from them. -/
def run_interval_binning (raw : List ℚ) (vals : List (Option ℚ)) :
    List (Option String) :=
  apply_interval_binning vals (get_interval_cutpoints_sorted raw)
    (run_interval_labels raw)

end Binner

namespace Classifier

/-- A non-missing cell of a loaded DataFrame column: a text value or a
numeric value. -/
inductive Cell : Type where
  | s (v : String)
  | n (v : ℚ)
deriving DecidableEq

/-- One DataFrame column: its name, the name of its pandas dtype, and its
cells (`none` = missing). -/
structure PColumn where
  cname : String
  dtype : String
  cells : List (Option Cell)

/-- Substring test on dtype names, modelling Python `'int' in str(dtype)`. -/
def strContains (s pat : String) : Bool := (s.splitOn pat).length != 1

/-- The string-dtype test of `analyze_columns` (`data_analyzer.py` line
114): `dtype in ['object', 'string'] or str(dtype).startswith('string')`. -/
def isStringDtype (d : String) : Bool :=
  d == "object" || d == "string" || d.startsWith "string"

/-- The numeric-dtype test (line 117): membership in the four concrete
dtype names, or `'int' in str(dtype)` or `'float' in str(dtype)`. -/
def isNumericDtype (d : String) : Bool :=
  d == "int64" || d == "int32" || d == "float64" || d == "float32" ||
    strContains d "int" || strContains d "float"

/-- Whether `pd.to_numeric(value, errors='raise')` succeeds on one cell;
on a text cell this is the external pandas string-to-number parse,
supplied as the parameter `toNumericOk`. -/
def cellNumericOk (toNumericOk : String → Bool) : Cell → Bool
  | .s v => toNumericOk v
  | .n _ => true

/-- `analyze_columns` of `data_analyzer.py` (lines 89-131; identical in
`data_analyzer_v2.py` lines 91-133): per column, in order — a column with
no non-missing values is skipped; a string-dtype column is a dimension; a
numeric-dtype column is a metric; otherwise the first 10 non-missing
values are probed with `pd.to_numeric` and the column is a metric when all
of them convert, else a dimension. -/
def analyze_columns (toNumericOk : String → Bool) (df : List PColumn) :
    List String × List String :=
  df.foldl (fun acc col =>
    let nonNull := col.cells.filterMap id
    if nonNull.isEmpty then acc
    else if isStringDtype col.dtype then (acc.1 ++ [col.cname], acc.2)
    else if isNumericDtype col.dtype then (acc.1, acc.2 ++ [col.cname])
    else if (nonNull.take 10).all (cellNumericOk toNumericOk) then
      (acc.1, acc.2 ++ [col.cname])
    else (acc.1 ++ [col.cname], acc.2)) ([], [])

/-- The classification step of `run` (`data_analyzer.py` lines 380-387)
and of `run_analysis` (`auto_monthly_analysis.py` lines 356-362): the
column classifier is invoked on the current-period dataset only; the
prior-period dataset is loaded by the same run but never consulted for
classification. -/
def run_classification (toNumericOk : String → Bool)
    (currentData _previousData : List PColumn) : List String × List String :=
  analyze_columns toNumericOk currentData

end Classifier

/-- C1 counterexample: at prior total 0 and current total 40 the
`data_analyzer.py` calculator cited by the claim returns the finite
percentage `100.0` — not a non-numeric positive-infinity marker. -/
theorem growth_zero_prior_returns_100_cx :
    DataAnalyzer.growth_pct 0 40 = 100 := by
  norm_num [DataAnalyzer.growth_pct]

/-- C1 (amended): for prior total 0 and positive current total the
`auto_monthly_analysis.py` calculator returns the positive-infinity
marker, while the `data_analyzer.py` calculator returns the fixed finite
placeholder `100.0`; in particular, for prior 0 and current 40,
`data_analyzer.py` yields delta 40 with growth `100.0` and
`auto_monthly_analysis.py` yields the positive-infinity marker. -/
theorem growth_zero_prior_policy_split :
    (∀ c : ℚ, 0 < c →
      AutoMonthly.calculate_growth_rate 0 c = .posInf ∧
      DataAnalyzer.growth_pct 0 c = 100) ∧
    DataAnalyzer.delta_change 0 40 = 40 ∧
    AutoMonthly.calculate_growth_rate 0 40 = .posInf := by
  have h : ∀ c : ℚ, 0 < c →
      AutoMonthly.calculate_growth_rate 0 c = .posInf ∧
      DataAnalyzer.growth_pct 0 c = 100 := by
    intro c hc
    constructor
    · simp [AutoMonthly.calculate_growth_rate, hc, hc.ne', hc.not_lt]
    · simp [DataAnalyzer.growth_pct, hc]
  exact ⟨h, by norm_num [DataAnalyzer.delta_change], (h 40 (by norm_num)).1⟩

/-- C1 witness: the amended statement instantiated at prior 0, current 40. -/
theorem growth_zero_prior_policy_split_witness :
    (0:ℚ) < 40 ∧
    AutoMonthly.calculate_growth_rate 0 40 = .posInf ∧
    DataAnalyzer.growth_pct 0 40 = 100 :=
  ⟨by norm_num, (growth_zero_prior_policy_split.1 40 (by norm_num)).1,
    (growth_zero_prior_policy_split.1 40 (by norm_num)).2⟩

/-- C2 counterexample: at prior total 0 and current total −1 the
`auto_monthly_analysis.py` calculator keeps the `np.inf` fill value, i.e.
returns the positive-infinity marker — not the negative-infinity marker
the claim requires — and the `data_analyzer_v2.py` calculator returns the
plain number `0.0`. -/
theorem growth_zero_prior_negative_cx :
    AutoMonthly.calculate_growth_rate 0 (-1) = .posInf ∧
    GrowthValue.posInf ≠ GrowthValue.negInf ∧
    DataAnalyzerV2.growth_pct_v2 0 (-1) = 0 := by
  refine ⟨?_, by decide, ?_⟩
  · norm_num [AutoMonthly.calculate_growth_rate]
  · norm_num [DataAnalyzerV2.growth_pct_v2]

/-- C2 (amended): with prior total 0, both cited variants return exactly 0
when the current total is 0; when the current total is negative, neither
returns a negative-infinity marker — `auto_monthly_analysis.py` returns
the positive-infinity marker and `data_analyzer_v2.py` returns `0.0`. -/
theorem growth_zero_prior_nonpositive :
    AutoMonthly.calculate_growth_rate 0 0 = .num 0 ∧
    DataAnalyzerV2.growth_pct_v2 0 0 = 0 ∧
    (∀ c : ℚ, c < 0 →
      AutoMonthly.calculate_growth_rate 0 c = .posInf ∧
      DataAnalyzerV2.growth_pct_v2 0 c = 0) := by
  refine ⟨by norm_num [AutoMonthly.calculate_growth_rate],
    by norm_num [DataAnalyzerV2.growth_pct_v2], ?_⟩
  intro c hc
  constructor
  · simp [AutoMonthly.calculate_growth_rate, hc.ne, hc.not_lt]
  · simp [DataAnalyzerV2.growth_pct_v2, hc.not_lt]

/-- C2 witness: the amended statement instantiated at current total −1. -/
theorem growth_zero_prior_nonpositive_witness :
    (-1:ℚ) < 0 ∧
    AutoMonthly.calculate_growth_rate 0 (-1) = .posInf ∧
    DataAnalyzerV2.growth_pct_v2 0 (-1) = 0 :=
  ⟨by norm_num, (growth_zero_prior_nonpositive.2.2 (-1) (by norm_num)).1,
    (growth_zero_prior_nonpositive.2.2 (-1) (by norm_num)).2⟩

/-- C4: for a non-zero prior total the `data_analyzer.py` and
`data_analyzer_v2.py` calculators return `round(100·(C−P)/P, 2)` and the
delta column is `C − P`; the `auto_monthly_analysis.py` calculator returns
the raw ratio `(C−P)/P` (its formatter renders that ratio as a percentage
with 2 decimal places). -/
theorem growth_nonzero_prior_formula (p c : ℚ) (hp : p ≠ 0) :
    DataAnalyzer.growth_pct p c = pround2 (100 * (c - p) / p) ∧
    DataAnalyzerV2.growth_pct_v2 p c = pround2 (100 * (c - p) / p) ∧
    DataAnalyzer.delta_change p c = c - p ∧
    AutoMonthly.calculate_growth_rate p c = .num ((c - p) / p) := by
  have harg : (c - p) / p * 100 = 100 * (c - p) / p := by ring
  refine ⟨?_, ?_, rfl, ?_⟩
  · simp [DataAnalyzer.growth_pct, hp, harg]
  · simp [DataAnalyzerV2.growth_pct_v2, hp, harg]
  · simp [AutoMonthly.calculate_growth_rate, hp]

/-- C4 witness: the formula instantiated at prior 4, current 5 (growth
`round(25, 2) = 25`, delta 1). -/
theorem growth_nonzero_prior_formula_witness :
    (4:ℚ) ≠ 0 ∧ DataAnalyzer.growth_pct 4 5 = pround2 (100 * (5 - 4) / 4) :=
  ⟨by norm_num, (growth_nonzero_prior_formula 4 5 (by norm_num)).1⟩

/-- C10: in `data_analysis_report.py`, a zero or missing prior-month value
makes the month-over-month growth rate missing (`NaN`) for every current
value — a third zero-denominator policy, shown distinct at prior 0 and
current 40 from the `np.inf` marker of `auto_monthly_analysis.py` and the
`100.0` placeholder of `data_analyzer.py`. -/
theorem report_mom_growth_nan_policy :
    (∀ current lastYear : Option ℚ,
      (DataAnalysisReport.calculate_growth_rates current none lastYear).1 = none ∧
      (DataAnalysisReport.calculate_growth_rates current (some 0) lastYear).1 = none) ∧
    (DataAnalysisReport.calculate_growth_rates (some 40) (some 0) none).1 = none ∧
    AutoMonthly.calculate_growth_rate 0 40 = .posInf ∧
    DataAnalyzer.growth_pct 0 40 = 100 := by
  refine ⟨fun current lastYear => ⟨rfl, ?_⟩, ?_, ?_, ?_⟩
  · simp [DataAnalysisReport.calculate_growth_rates]
  · simp [DataAnalysisReport.calculate_growth_rates]
  · norm_num [AutoMonthly.calculate_growth_rate]
  · norm_num [DataAnalyzer.growth_pct]

/-- Helper: a key is unmatched by `lookupKey` exactly when it is absent
from the key column. -/
theorem lookupKey_eq_none_iff {κ : Type} [DecidableEq κ] {M : Type}
    (k : κ) (l : List (κ × M)) :
    Merger.lookupKey k l = none ↔ k ∉ Merger.keysOf l := by
  unfold Merger.lookupKey Merger.keysOf
  rw [Option.map_eq_none', List.find?_eq_none]
  simp
  constructor
  · intro h x hx
    exact h k x hx rfl
  · intro h a b hab hak
    subst hak
    exact h b hab

/-- Helper: the key column of the merged table is the current keys
followed by the unmatched prior keys. -/
theorem keysOf_merge_eq {κ : Type} [DecidableEq κ]
    (cur prev : List (κ × Merger.Metrics)) :
    Merger.keysOf (Merger.merge_monthly_data cur prev) =
      Merger.keysOf cur ++
        (prev.filter (fun r => (Merger.lookupKey r.1 cur).isNone)).map
          Prod.fst := by
  unfold Merger.merge_monthly_data Merger.fillna_zero Merger.outer_join
    Merger.keysOf
  simp only [List.map_append, List.map_map]
  rfl

/-- C3: merging two aggregates whose key columns are duplicate-free (as
`groupby(...).sum()` produces) yields a merged table whose key column is
duplicate-free and whose key set is exactly the union of the two inputs'
key sets; a key present only in the current aggregate gets all-zero prior
totals and a key present only in the prior aggregate gets all-zero current
totals — the zero fill happens in the merged table itself, from which the
growth rates are subsequently computed. -/
theorem merge_union_and_zero_fill {κ : Type} [DecidableEq κ]
    (cur prev : List (κ × Merger.Metrics))
    (hc : (Merger.keysOf cur).Nodup) (hp : (Merger.keysOf prev).Nodup) :
    (Merger.keysOf (Merger.merge_monthly_data cur prev)).Nodup ∧
    (∀ k, k ∈ Merger.keysOf (Merger.merge_monthly_data cur prev) ↔
      k ∈ Merger.keysOf cur ∨ k ∈ Merger.keysOf prev) ∧
    (∀ k m, (k, m) ∈ cur → k ∉ Merger.keysOf prev →
      (k, m, (fun _ => 0 : Merger.Metrics)) ∈
        Merger.merge_monthly_data cur prev) ∧
    (∀ k m, (k, m) ∈ prev → k ∉ Merger.keysOf cur →
      (k, (fun _ => 0 : Merger.Metrics), m) ∈
        Merger.merge_monthly_data cur prev) := by
  refine ⟨?_, ?_, ?_, ?_⟩
  · rw [keysOf_merge_eq, List.nodup_append]
    refine ⟨hc, ?_, ?_⟩
    · exact hp.sublist ((List.filter_sublist prev).map Prod.fst)
    · intro a ha hb
      rw [List.mem_map] at hb
      obtain ⟨r, hr, hrk⟩ := hb
      rw [List.mem_filter] at hr
      have hnone : Merger.lookupKey r.1 cur = none :=
        Option.isNone_iff_eq_none.mp hr.2
      rw [hrk] at hnone
      exact (lookupKey_eq_none_iff a cur).mp hnone ha
  · intro k
    rw [keysOf_merge_eq, List.mem_append, List.mem_map]
    constructor
    · rintro (h | ⟨r, hr, hrk⟩)
      · exact Or.inl h
      · rw [List.mem_filter] at hr
        refine Or.inr ?_
        rw [← hrk]
        exact List.mem_map_of_mem Prod.fst hr.1
    · rintro (h | h)
      · exact Or.inl h
      · by_cases hck : k ∈ Merger.keysOf cur
        · exact Or.inl hck
        · refine Or.inr ?_
          unfold Merger.keysOf at h
          rw [List.mem_map] at h
          obtain ⟨r, hr, hrk⟩ := h
          exact ⟨r, List.mem_filter.mpr ⟨hr, by
            show (Merger.lookupKey r.1 cur).isNone = true
            rw [hrk]
            exact Option.isNone_iff_eq_none.mpr
              ((lookupKey_eq_none_iff k cur).mpr hck)⟩, hrk⟩
  · intro k m hmem hnp
    have h1 : (k, some m, Merger.lookupKey k prev) ∈
        cur.map (fun r => (r.1, some r.2, Merger.lookupKey r.1 prev)) :=
      List.mem_map_of_mem _ hmem
    rw [(lookupKey_eq_none_iff k prev).mpr hnp] at h1
    exact List.mem_map_of_mem _ (List.mem_append_left _ h1)
  · intro k m hmem hnc
    have hq : ((Merger.lookupKey (k, m).1 cur).isNone) = true :=
      Option.isNone_iff_eq_none.mpr ((lookupKey_eq_none_iff k cur).mpr hnc)
    have h1 : (k, m) ∈ prev.filter (fun r => (Merger.lookupKey r.1 cur).isNone) :=
      List.mem_filter.mpr ⟨hmem, hq⟩
    have h2 : ((k:κ), (none : Option Merger.Metrics), some m) ∈
        (prev.filter (fun r => (Merger.lookupKey r.1 cur).isNone)).map
          (fun r => (r.1, none, some r.2)) :=
      List.mem_map_of_mem _ h1
    exact List.mem_map_of_mem _ (List.mem_append_right _ h2)

/-- C3 witness: the merge theorem instantiated on two small concrete
aggregates sharing the key `East`, with `West` only in the prior side. -/
theorem merge_union_and_zero_fill_witness :
    (Merger.keysOf [(("East" : String), (fun _ => 100 : Merger.Metrics))]).Nodup ∧
    (Merger.keysOf [(("East" : String), (fun _ => 80 : Merger.Metrics)),
      ("West", fun _ => 50)]).Nodup ∧
    (Merger.keysOf (Merger.merge_monthly_data
      [(("East" : String), (fun _ => 100 : Merger.Metrics))]
      [("East", fun _ => 80), ("West", fun _ => 50)])).Nodup :=
  ⟨by decide, by decide,
    (merge_union_and_zero_fill [("East", fun _ => 100)]
      [("East", fun _ => 80), ("West", fun _ => 50)]
      (by decide) (by decide)).1⟩

/-- C5 evaluation at the claim's input: cutpoints `[100, 500]` produce
exactly the 3 labels `<=100`, `100-500`, `>500`, but because `pd.cut` is
called with `right=False` (left-closed intervals), the boundary value 100
is assigned the label `100-500` and the boundary value 500 the label
`>500` — not `<=100` resp. `100-500` as the claim and the code's own label
text state; a non-boundary value such as 99 is assigned `<=100`, and a
value that failed numeric coercion gets no label. -/
theorem interval_boundary_assignment_eval :
    Binner.create_interval_labels [100, 500] = ["<=100", "100-500", ">500"] ∧
    (Binner.create_interval_labels [100, 500]).length = 3 ∧
    Binner.apply_interval_binning [some 100, some 500, some 99, none]
        [100, 500] (Binner.create_interval_labels [100, 500]) =
      [some "100-500", some ">500", some "<=100", none] := by
  refine ⟨by decide, by decide, by decide⟩

/-- Helper: restricting to the rows where `f` succeeds does not change
`filterMap f`. -/
theorem filterMap_filter_isSome {α β : Type} (f : α → Option β)
    (l : List α) :
    (l.filter (fun a => (f a).isSome)).filterMap f = l.filterMap f := by
  induction l with
  | nil => rfl
  | cons a l ih =>
      rcases hf : f a with _ | b
      · simp [List.filter_cons, List.filterMap_cons, hf, ih]
      · simp [List.filter_cons, List.filterMap_cons, hf, ih]

/-- Helper: the key column of a dimension-mode aggregate is the observed
key list. -/
theorem keysOf_group_and_summarize (rows : List Aggregator.Row) :
    Merger.keysOf (Aggregator.group_and_summarize rows) =
      Aggregator.observedKeys rows := by
  unfold Merger.keysOf Aggregator.group_and_summarize
  rw [List.map_map]
  exact List.map_id _

/-- Helper: a group's total only draws on the rows of that group, so
restricting to the rows with a present grouping key changes no total. -/
theorem groupTotal_filter_isSome (rows : List Aggregator.Row)
    (k : List String) (m : String) :
    Aggregator.groupTotal
        (rows.filter (fun r => (Aggregator.rowKey r.gvals).isSome)) k m =
      Aggregator.groupTotal rows k m := by
  unfold Aggregator.groupTotal
  rw [List.filter_filter]
  have heq : ∀ r ∈ rows,
      (decide (Aggregator.rowKey r.gvals = some k) &&
        (Aggregator.rowKey r.gvals).isSome) =
        decide (Aggregator.rowKey r.gvals = some k) := by
    intro r _
    by_cases hk : Aggregator.rowKey r.gvals = some k
    · simp [hk]
    · simp [hk]
  rw [List.filter_congr heq]

/-- C8: a row with a missing value in any grouping-key column (or, in
interval mode, a row with no interval label because its binning value
failed numeric coercion) is excluded from aggregation entirely — removing
all such rows changes neither the dimension-mode nor the interval-mode
aggregate — and every grouping key of the dimension-mode aggregate comes
from a row whose grouping cells are all present. -/
theorem aggregation_excludes_missing_keys (rows : List Aggregator.Row)
    (labels : List String) (brows : List Aggregator.BinnedRow) :
    Aggregator.group_and_summarize rows =
      Aggregator.group_and_summarize
        (rows.filter (fun r => (Aggregator.rowKey r.gvals).isSome)) ∧
    (∀ k, k ∈ Merger.keysOf (Aggregator.group_and_summarize rows) →
      ∃ r ∈ rows, Aggregator.rowKey r.gvals = some k) ∧
    Aggregator.interval_group_and_summarize labels brows =
      Aggregator.interval_group_and_summarize labels
        (brows.filter (fun r => r.label.isSome)) := by
  refine ⟨?_, ?_, ?_⟩
  · unfold Aggregator.group_and_summarize
    have hkeys : Aggregator.observedKeys
        (rows.filter (fun r => (Aggregator.rowKey r.gvals).isSome)) =
          Aggregator.observedKeys rows := by
      unfold Aggregator.observedKeys
      rw [filterMap_filter_isSome (fun r => Aggregator.rowKey r.gvals) rows]
    rw [hkeys]
    have hfun : (fun k => ((k : List String),
        fun m => Aggregator.groupTotal
          (rows.filter (fun r => (Aggregator.rowKey r.gvals).isSome)) k m)) =
        (fun k => (k, fun m => Aggregator.groupTotal rows k m)) := by
      funext k
      have : (fun m => Aggregator.groupTotal
          (rows.filter (fun r => (Aggregator.rowKey r.gvals).isSome)) k m) =
          (fun m => Aggregator.groupTotal rows k m) := by
        funext m
        exact groupTotal_filter_isSome rows k m
      rw [this]
    rw [hfun]
  · intro k hk
    rw [keysOf_group_and_summarize] at hk
    unfold Aggregator.observedKeys at hk
    rw [List.mem_dedup, List.mem_filterMap] at hk
    exact hk
  · unfold Aggregator.interval_group_and_summarize
    have hfun : (fun lab => ((lab : String), fun m =>
        (((brows.filter (fun r => r.label.isSome)).filter
            (fun r => decide (r.label = some lab))).map
          (fun r => (r.mvals m).getD 0)).sum)) =
        (fun lab => (lab, fun m =>
          ((brows.filter (fun r => decide (r.label = some lab))).map
            (fun r => (r.mvals m).getD 0)).sum)) := by
      funext lab
      have hrows : (brows.filter (fun r => r.label.isSome)).filter
          (fun r => decide (r.label = some lab)) =
          brows.filter (fun r => decide (r.label = some lab)) := by
        rw [List.filter_filter]
        have heq : ∀ r ∈ brows,
            (decide (r.label = some lab) && r.label.isSome) =
              decide (r.label = some lab) := by
          intro r _
          by_cases hl : r.label = some lab
          · simp [hl]
          · simp [hl]
        rw [List.filter_congr heq]
      rw [hrows]
    rw [hfun]

/-- C8 witness: exclusion instantiated on a one-row dataset whose single
grouping cell is missing. -/
theorem aggregation_excludes_missing_keys_witness :
    Aggregator.group_and_summarize [⟨[none], fun _ => some 7⟩] =
      Aggregator.group_and_summarize
        (([⟨[none], fun _ => some 7⟩] : List Aggregator.Row).filter
          (fun r => (Aggregator.rowKey r.gvals).isSome)) :=
  (aggregation_excludes_missing_keys [⟨[none], fun _ => some 7⟩] [] []).1

/-- C6 counterexample: with cutpoints `[100]` (labels `<=100`, `>100`) and
a single input row whose binning value 150 receives the label `>100`, the
interval-mode aggregate still contains a row for the unobserved label
`<=100` — with totals 0, not absent as the claim states. -/
theorem sparse_aggregate_interval_cx :
    Binner.apply_interval_binning [some 150] [100]
        (Binner.create_interval_labels [100]) = [some ">100"] ∧
    Merger.keysOf (Aggregator.interval_group_and_summarize
        (Binner.create_interval_labels [100])
        [⟨some ">100", fun m => if m = "amount" then some 7 else none⟩]) =
      ["<=100", ">100"] ∧
    (Aggregator.interval_group_and_summarize
        (Binner.create_interval_labels [100])
        [⟨some ">100", fun m => if m = "amount" then some 7 else none⟩]).map
      (fun r => r.2 "amount") = [0, 7] := by
  refine ⟨by decide, by decide, ?_⟩
  have h1 : Binner.create_interval_labels [100] = ["<=100", ">100"] := by
    decide
  rw [h1]
  simp [Aggregator.interval_group_and_summarize]

/-- C6 (amended): in dimension-mode the aggregate's keys are exactly the
observed grouping-key combinations — absent combinations produce no row;
in interval-mode the aggregate instead has one row per interval label,
because `groupby` over the categorical interval column emits every
category, a label containing no rows appearing with zero totals. -/
theorem sparse_dimension_full_interval :
    (∀ (rows : List Aggregator.Row) (k : List String),
      k ∈ Merger.keysOf (Aggregator.group_and_summarize rows) ↔
        ∃ r ∈ rows, Aggregator.rowKey r.gvals = some k) ∧
    (∀ (labels : List String) (brows : List Aggregator.BinnedRow),
      Merger.keysOf (Aggregator.interval_group_and_summarize labels brows) =
        labels) := by
  constructor
  · intro rows k
    rw [keysOf_group_and_summarize]
    unfold Aggregator.observedKeys
    rw [List.mem_dedup, List.mem_filterMap]
  · intro labels brows
    unfold Merger.keysOf Aggregator.interval_group_and_summarize
    rw [List.map_map]
    exact List.map_id _

/-- C6 witness: the interval-mode conjunct instantiated on an empty row
list — both labels appear even though neither is observed. -/
theorem sparse_dimension_full_interval_witness :
    Merger.keysOf
        (Aggregator.interval_group_and_summarize ["<=100", ">100"] []) =
      ["<=100", ">100"] :=
  sparse_dimension_full_interval.2 ["<=100", ">100"] []

/-- C7: the interval pipeline sorts the user-supplied cutpoints before
constructing labels and assigning rows: the sorted sequence is an
ascending permutation of the input, the labels are those of the sorted
sequence, and labels and binning are invariant under any reordering of the
input cutpoints. -/
theorem binner_sorts_cutpoints (raw raw2 : List ℚ) (vals : List (Option ℚ))
    (hperm : raw.Perm raw2) :
    (Binner.get_interval_cutpoints_sorted raw).Sorted (· ≤ ·) ∧
    (Binner.get_interval_cutpoints_sorted raw).Perm raw ∧
    Binner.run_interval_labels raw =
      Binner.create_interval_labels
        (Binner.get_interval_cutpoints_sorted raw) ∧
    Binner.run_interval_labels raw = Binner.run_interval_labels raw2 ∧
    Binner.run_interval_binning raw vals =
      Binner.run_interval_binning raw2 vals := by
  have hsorteq : Binner.get_interval_cutpoints_sorted raw =
      Binner.get_interval_cutpoints_sorted raw2 := by
    have hs1 : (Binner.get_interval_cutpoints_sorted raw).Sorted (· ≤ ·) :=
      List.sorted_insertionSort _ raw
    have hs2 : (Binner.get_interval_cutpoints_sorted raw2).Sorted (· ≤ ·) :=
      List.sorted_insertionSort _ raw2
    have hpp : (Binner.get_interval_cutpoints_sorted raw).Perm
        (Binner.get_interval_cutpoints_sorted raw2) :=
      ((List.perm_insertionSort _ raw).trans hperm).trans
        (List.perm_insertionSort _ raw2).symm
    exact List.eq_of_perm_of_sorted hpp hs1 hs2
  refine ⟨List.sorted_insertionSort _ raw, List.perm_insertionSort _ raw,
    rfl, ?_, ?_⟩
  · unfold Binner.run_interval_labels
    rw [hsorteq]
  · unfold Binner.run_interval_binning Binner.run_interval_labels
    rw [hsorteq]

/-- C7 witness: the decreasing cutpoint input `[500, 100]` yields the same
labels as its sorted reordering `[100, 500]`. -/
theorem binner_sorts_cutpoints_witness :
    ([(500 : ℚ), 100]).Perm [100, 500] ∧
    Binner.run_interval_labels [500, 100] =
      Binner.run_interval_labels [100, 500] :=
  ⟨by decide,
    (binner_sorts_cutpoints [500, 100] [100, 500] [] (by decide)).2.2.2.1⟩

/-- C9: the dimension/metric classification of an analysis run is a
function of the current-period dataset alone — two runs sharing the
current-period dataset but differing arbitrarily in the prior-period
dataset produce identical dimension and metric column lists, namely
`analyze_columns` of the current-period dataset. -/
theorem classification_ignores_prior (toNumericOk : String → Bool)
    (cur prev1 prev2 : List Classifier.PColumn) :
    Classifier.run_classification toNumericOk cur prev1 =
      Classifier.run_classification toNumericOk cur prev2 ∧
    Classifier.run_classification toNumericOk cur prev1 =
      Classifier.analyze_columns toNumericOk cur :=
  ⟨rfl, rfl⟩
